import Mathlib

/-
Verification of the bias-measurement-and-mitigation evaluation routine of the
AI-Fairness repository (src/source.py).

The notebook delegates the fairness metrics and the reweighing transform to the
external aif360 toolkit (BinaryLabelDatasetMetric, Reweighing); only the call
sites appear in the repository, so those two components are modelled here from
the specification's formulas (each such definition carries a doc comment
starting "Modelled from the spec:").  The interpretation-threshold logic
(source.py lines 155-166) and the clean_data routine (lines 188-207) are
embedded directly from the source.

Numeric values are rationals (ℚ), so every equality proved exactly implies the
spec's floating-point tolerances.
-/

/-- A Record models one row of the binary-label dataset: a binary outcome
`label` (favorable value is `true`, mirroring favorable_classes=[1]), a binary
protected attribute `protectedAttr` (privileged value `true`, mirroring
privileged_classes=[[1]] on treatment_group_high), and an instance weight
(1 for an unweighted dataset, as in aif360's StandardDataset). -/
structure Record where
  label : Bool
  protectedAttr : Bool
  weight : ℚ
deriving DecidableEq, Repr

/-- A record of an unweighted Dataset: weight defaults to 1. -/
def mkR (p l : Bool) : Record := Record.mk l p 1

/-- Error taxonomy of the evaluation routine (spec §7). -/
inductive FairnessError where
  | invalidInput : FairnessError
  | insufficientData : FairnessError
  | divisionByZero : FairnessError
deriving DecidableEq, Repr

/-- Sum of the weights of the records satisfying a predicate. -/
def wsum (p : Record → Bool) : List Record → ℚ
  | [] => 0
  | r :: ds => (if p r then r.weight else 0) + wsum p ds

/-- Number of records satisfying a predicate. -/
def countIf (p : Record → Bool) : List Record → ℕ
  | [] => 0
  | r :: ds => (if p r then 1 else 0) + countIf p ds

/-- Membership in the group with protected-attribute value `g`. -/
def inGroup (g : Bool) (r : Record) : Bool := r.protectedAttr == g

/-- Membership in the (protected = g, label = l) cell. -/
def inCell (g l : Bool) (r : Record) : Bool := r.protectedAttr == g && r.label == l

/-- Unweighted size of the group with protected value `g`. -/
def groupCount (ds : List Record) (g : Bool) : ℕ := countIf (inGroup g) ds

/-- Unweighted number of records with label value `l`. -/
def labelCount (ds : List Record) (l : Bool) : ℕ := countIf (fun r => r.label == l) ds

/-- Unweighted size of the (protected = g, label = l) cell. -/
def cellCount (ds : List Record) (g l : Bool) : ℕ := countIf (inCell g l) ds

/-- Modelled from the spec: the favorable rate of the group `protected = g`,
the weight-sum of the group's favorably labelled records over the weight-sum of
all the group's records (aif360's base_rate, not present in src/). -/
def favRate (ds : List Record) (g : Bool) : ℚ :=
  wsum (inCell g true) ds / wsum (inGroup g) ds

/-- Modelled from the spec: BinaryLabelDatasetMetric.disparate_impact, invoked
at source.py line 151 but defined in the external aif360 library.  Ratio of the
unprivileged group's favorable rate to the privileged group's; when the
privileged favorable rate is zero the spec requires a DivisionByZero-class
failure (the failure alternative of the spec's edge case is chosen). -/
def disparate_impact (ds : List Record) : Except FairnessError ℚ :=
  if favRate ds true = 0 then Except.error FairnessError.divisionByZero
  else Except.ok (favRate ds false / favRate ds true)

/-- Modelled from the spec: BinaryLabelDatasetMetric.mean_difference, invoked
at source.py line 152 but defined in the external aif360 library.  Unprivileged
favorable rate minus privileged favorable rate. -/
def mean_difference (ds : List Record) : ℚ :=
  favRate ds false - favRate ds true

/-- Modelled from the spec: the reweighing weight of the (protected = g,
label = l) cell, expected_count(cell) / observed_count(cell) with
expected_count(cell) = count(protected = g) * count(label = l) / total. -/
def reweighWeight (ds : List Record) (g l : Bool) : ℚ :=
  ((groupCount ds g : ℚ) * (labelCount ds l : ℚ) / (ds.length : ℚ)) /
    (cellCount ds g l : ℚ)

/-- A record with its weight replaced by its cell's reweighing weight. -/
def reweighRecord (ds : List Record) (r : Record) : Record :=
  Record.mk r.label r.protectedAttr (reweighWeight ds r.protectedAttr r.label)

/-- Modelled from the spec: Reweighing.fit_transform, invoked at source.py
line 219 but defined in the external aif360 library.  Requires all four
(protected, label) cells to be non-empty (otherwise InsufficientData) and
assigns every record its cell's reweighing weight. -/
def fit_transform (ds : List Record) : Except FairnessError (List Record) :=
  if cellCount ds true true = 0 ∨ cellCount ds true false = 0 ∨
      cellCount ds false true = 0 ∨ cellCount ds false false = 0 then
    Except.error FairnessError.insufficientData
  else
    Except.ok (ds.map (reweighRecord ds))

/-- Source.py line 158: the "significant disparity" branch is taken exactly
when the disparate impact is below the literal 0.8; the threshold is a
hard-coded constant in the source, not a parameter. -/
def significant_disparity (di : ℚ) : Bool := decide (di < 4/5)

/-- Source.py line 163: the "high gap" branch is taken exactly when the
absolute mean difference exceeds the literal 0.2; the threshold is a
hard-coded constant in the source, not a parameter. -/
def high_gap (dp : ℚ) : Bool := decide (|dp| > 1/5)

/-- Modelled from the spec: the spec requires the disparity threshold to be a
configurable parameter of the evaluator ("must be configurable parameters, not
hard-coded magic numbers"); this is the configurable-threshold flag the spec
describes, to be compared with the source's `significant_disparity`. -/
def significant_disparity_spec (threshold di : ℚ) : Bool := decide (di < threshold)

/-- Modelled from the spec: configurable-threshold variant of the high-gap
flag, to be compared with the source's `high_gap`. -/
def high_gap_spec (threshold dp : ℚ) : Bool := decide (|dp| > threshold)

/-- The Fairness Evaluator of source.py lines 146-166: disparate impact, mean
difference, and the two interpretation flags derived from them. -/
def evaluate (ds : List Record) : Except FairnessError (ℚ × ℚ × Bool × Bool) :=
  match disparate_impact ds with
  | Except.error e => Except.error e
  | Except.ok di =>
      Except.ok (di, mean_difference ds, significant_disparity di,
        high_gap (mean_difference ds))

/-- The 10-record dataset of spec §8: privileged group of 6 with 3 favorable,
unprivileged group of 4 with 1 favorable. -/
def sample10 : List Record :=
  [mkR true true, mkR true true, mkR true true,
   mkR true false, mkR true false, mkR true false,
   mkR false true,
   mkR false false, mkR false false, mkR false false]

/-- The reweighed form of `sample10`: weight 4/5 on the three (priv, fav)
records, 6/5 on the three (priv, unfav) records, 8/5 on the single
(unpriv, fav) record and 4/5 on the three (unpriv, unfav) records. -/
def sample10Reweighed : List Record :=
  [Record.mk true true (4/5), Record.mk true true (4/5), Record.mk true true (4/5),
   Record.mk false true (6/5), Record.mk false true (6/5), Record.mk false true (6/5),
   Record.mk true false (8/5),
   Record.mk false false (4/5), Record.mk false false (4/5), Record.mk false false (4/5)]

/-- A dataset whose unprivileged group has no favorable record
(the (protected = 0, label = 1) cell is empty), spec §8 failure scenario. -/
def dsMissingCell : List Record :=
  [mkR true true, mkR true false, mkR false false]

/-- A dataset whose privileged group has favorable rate zero. -/
def dsZeroPriv : List Record :=
  [mkR true false, mkR false true]

/-- A cell of a pandas table: missing (NaN), numeric, or a string held by an
object column. -/
inductive Value where
  | na : Value
  | num : ℚ → Value
  | str : String → Value
deriving DecidableEq, Repr

/-- The dtype of a pandas column: numeric or object. -/
inductive Dtype where
  | numeric : Dtype
  | object : Dtype
deriving DecidableEq, Repr

/-- A pandas DataFrame: per-column dtypes and a list of rows, each row listing
the cells in column order. -/
structure DataFrame where
  dtypes : List Dtype
  rows : List (List Value)
deriving DecidableEq, Repr

/-- The empty frame, used as a lookup default. -/
def emptyDF : DataFrame := DataFrame.mk [] []

/-- Accumulator form of row deduplication: keep each row's first occurrence
(df.drop_duplicates at source.py line 190). -/
def dropDupAux : List (List Value) → List (List Value) → List (List Value)
  | [], _ => []
  | r :: rs, seen =>
      if r ∈ seen then dropDupAux rs seen else r :: dropDupAux rs (r :: seen)

/-- df.drop_duplicates(inplace=True) of source.py line 190, on the row list. -/
def drop_duplicates (rows : List (List Value)) : List (List Value) :=
  dropDupAux rows []

/-- Insert into a sorted list of rationals. -/
def insertSorted (q : ℚ) : List ℚ → List ℚ
  | [] => [q]
  | x :: xs => if q ≤ x then q :: x :: xs else x :: insertSorted q xs

/-- Insertion sort on rationals, used to take the median. -/
def sortQ : List ℚ → List ℚ
  | [] => []
  | x :: xs => insertSorted x (sortQ xs)

/-- Median of a sorted list: the middle element for odd length, the average of
the two middle elements for even length, none when empty. -/
def medianOfSorted (l : List ℚ) : Option ℚ :=
  if l.length = 0 then none
  else if l.length % 2 = 1 then l.get? (l.length / 2)
  else
    match l.get? (l.length / 2 - 1), l.get? (l.length / 2) with
    | some a, some b => some ((a + b) / 2)
    | _, _ => none

/-- pandas Series.median (NaN-skipping) of a list of cell values. -/
def median (l : List ℚ) : Option ℚ := medianOfSorted (sortQ l)

/-- The numeric (non-NaN) values of column `j`. -/
def colNums (rows : List (List Value)) (j : ℕ) : List ℚ :=
  rows.filterMap fun r =>
    match r.getD j Value.na with
    | Value.num q => some q
    | _ => none

/-- df.select_dtypes(include=['number']).median() of source.py line 193: the
per-column fill values, defined only for numeric columns. -/
def columnMedians (dtypes : List Dtype) (rows : List (List Value)) : List (Option ℚ) :=
  (List.range dtypes.length).map fun j =>
    match dtypes.getD j Dtype.object with
    | Dtype.numeric => median (colNums rows j)
    | Dtype.object => none

/-- Fill one missing cell with its column's fill value, when there is one. -/
def fillCell : Option ℚ → Value → Value
  | some q, Value.na => Value.num q
  | _, v => v

/-- df.fillna(df.select_dtypes(include=['number']).median(), inplace=True) of
source.py line 193: fill each numeric column's missing values with that
column's median. -/
def medianFill (dtypes : List Dtype) (rows : List (List Value)) : List (List Value) :=
  rows.map fun r => List.zipWith fillCell (columnMedians dtypes rows) r

/-- One forward-fill step: replace each missing cell by the last value seen in
its column. -/
def ffillStep (lasts r : List Value) : List Value :=
  List.zipWith (fun last v => if v = Value.na then last else v) lasts r

/-- Forward fill down the rows, threading the last seen value per column. -/
def ffillAux : List Value → List (List Value) → List (List Value)
  | _, [] => []
  | lasts, r :: rs => ffillStep lasts r :: ffillAux (ffillStep lasts r) rs

/-- df.fillna(method='ffill', inplace=True) of source.py line 196. -/
def ffill (ncols : ℕ) (rows : List (List Value)) : List (List Value) :=
  ffillAux (List.replicate ncols Value.na) rows

/-- Digit-string value, none when empty or containing a non-digit. -/
def digitsValAux : ℕ → List Char → Option ℕ
  | acc, [] => some acc
  | acc, c :: cs =>
      if c.isDigit then digitsValAux (acc * 10 + (c.toNat - 48)) cs else none

/-- Digit-string value, none when the string is empty. -/
def digitsVal : List Char → Option ℕ
  | [] => none
  | cs => digitsValAux 0 cs

/-- Unsigned decimal-literal parser ("123" or "123.45"); anything else is
unparseable. -/
def parseUnsigned (cs : List Char) : Option ℚ :=
  match (cs.takeWhile fun c => c ≠ '.'), (cs.dropWhile fun c => c ≠ '.') with
  | intPart, [] => (digitsVal intPart).map fun n => (n : ℚ)
  | intPart, _ :: frac =>
      if frac.any fun c => c = '.' then none
      else
        match digitsVal intPart, digitsVal frac with
        | some n, some f => some ((n : ℚ) + (f : ℚ) / ((10 : ℚ) ^ frac.length))
        | _, _ => none

/-- Decimal-literal parser with optional sign, modelling which strings
pd.to_numeric can interpret as numbers; unmatched strings are unparseable. -/
def parseDec (s : String) : Option ℚ :=
  match s.data with
  | '-' :: cs => (parseUnsigned cs).map fun q => -q
  | cs => parseUnsigned cs

/-- pd.to_numeric(·, errors='coerce') of source.py line 202 on one cell:
numbers pass through and unparseable strings coerce to NaN. -/
def to_numeric : Value → Value
  | Value.na => Value.na
  | Value.num q => Value.num q
  | Value.str s =>
      match parseDec s with
      | some q => Value.num q
      | none => Value.na

/-- Coercion applied to object columns only, as transform_data_types loops
over df.select_dtypes(include=['object']).columns. -/
def coerceCell : Dtype → Value → Value
  | Dtype.object, v => to_numeric v
  | Dtype.numeric, v => v

/-- transform_data_types of source.py lines 199-205: coerce every object
column to numeric with errors='coerce' (the errors='coerce' mode never raises,
so the try/except is inert). -/
def transform_data_types (dtypes : List Dtype) (rows : List (List Value)) :
    List (List Value) :=
  rows.map fun r => List.zipWith coerceCell dtypes r

/-- clean_data of source.py lines 188-207: drop duplicate rows, fill numeric
columns' missing values with the column median, forward-fill the remaining
missing values, then coerce object columns to numeric; every column is numeric
afterwards. -/
def clean_data (df : DataFrame) : DataFrame :=
  DataFrame.mk (df.dtypes.map fun _ => Dtype.numeric)
    (transform_data_types df.dtypes
      (ffill df.dtypes.length
        (medianFill df.dtypes
          (drop_duplicates df.rows))))

/-- The caller-visible effect of `df = clean_data(df)` in the source: the
mutable table the argument names is updated in place and the same reference is
returned.  The heap is the list of live DataFrames, a reference an index into
it. -/
def clean_data_call (h : List DataFrame) (r : ℕ) : List DataFrame × ℕ :=
  (h.set r (clean_data (h.getD r emptyDF)), r)

/-- A concrete frame with a duplicate row, visibly changed by cleaning. -/
def dfDup : DataFrame :=
  DataFrame.mk [Dtype.numeric] [[Value.num 1], [Value.num 1]]

/-- A concrete frame with an object column holding an unparseable string. -/
def dfObj : DataFrame :=
  DataFrame.mk [Dtype.object] [[Value.str "abc"]]

lemma countIf_le_length (p : Record → Bool) (ds : List Record) :
    countIf p ds ≤ ds.length := by
  induction ds with
  | nil => simp [countIf]
  | cons r tl ih =>
      cases hp : p r <;> simp [countIf, hp] <;> omega

lemma groupCount_split (ds : List Record) (g : Bool) :
    groupCount ds g = cellCount ds g true + cellCount ds g false := by
  unfold groupCount cellCount
  induction ds with
  | nil => simp [countIf]
  | cons r tl ih =>
      cases hp : r.protectedAttr <;> cases hl : r.label <;> cases g <;>
        simp [countIf, inGroup, inCell, hp, hl] <;> omega

lemma countIf_pair (p q : Record → Bool) (hpq : ∀ r, p r = !(q r)) :
    ∀ ds : List Record, countIf p ds + countIf q ds = ds.length := by
  intro ds
  induction ds with
  | nil => rfl
  | cons r tl ih =>
      have h := hpq r
      cases hq : q r <;> rw [hq] at h <;> simp [countIf, h, hq] <;> omega

lemma labelCount_total (ds : List Record) :
    labelCount ds true + labelCount ds false = ds.length :=
  countIf_pair _ _ (fun r => by cases h : r.label <;> simp [h]) ds

lemma wsum_group_split (g : Bool) (L : List Record) :
    wsum (inGroup g) L = wsum (inCell g true) L + wsum (inCell g false) L := by
  induction L with
  | nil => simp [wsum]
  | cons r tl ih =>
      cases hp : r.protectedAttr <;> cases hl : r.label <;> cases g <;>
        simp [wsum, inGroup, inCell, hp, hl, ih] <;> ring

lemma wsum_inCell_map (ds0 : List Record) (g l : Bool) (ds : List Record) :
    wsum (inCell g l) (List.map (reweighRecord ds0) ds) =
      (cellCount ds g l : ℚ) * reweighWeight ds0 g l := by
  unfold cellCount
  induction ds with
  | nil => simp [wsum, countIf]
  | cons r tl ih =>
      have hproj : inCell g l (reweighRecord ds0 r) = inCell g l r := rfl
      cases hc : inCell g l r with
      | false => simp [wsum, countIf, hproj, hc, ih]
      | true =>
          obtain ⟨hg, hl⟩ : r.protectedAttr = g ∧ r.label = l := by
            simpa [inCell, Bool.and_eq_true, beq_iff_eq] using hc
          have hw : (reweighRecord ds0 r).weight = reweighWeight ds0 g l := by
            simp [reweighRecord, hg, hl]
          simp [wsum, countIf, hproj, hc, hw, ih]
          ring

lemma cell_mass_reweighed (ds : List Record) (g l : Bool)
    (h : cellCount ds g l ≠ 0) :
    (cellCount ds g l : ℚ) * reweighWeight ds g l =
      (groupCount ds g : ℚ) * (labelCount ds l : ℚ) / (ds.length : ℚ) := by
  have ha : ((cellCount ds g l : ℚ)) ≠ 0 := Nat.cast_ne_zero.mpr h
  rw [mul_comm ((cellCount ds g l : ℚ)) (reweighWeight ds g l)]
  unfold reweighWeight
  exact div_mul_cancel₀ _ ha

lemma wsum_group_reweighed (ds : List Record) (g : Bool)
    (h1 : cellCount ds g true ≠ 0) (h2 : cellCount ds g false ≠ 0) :
    wsum (inGroup g) (List.map (reweighRecord ds) ds) = (groupCount ds g : ℚ) := by
  have hlen : ds.length ≠ 0 := by
    have hle : cellCount ds g true ≤ ds.length := countIf_le_length _ _
    omega
  have hN : ((ds.length : ℚ)) ≠ 0 := Nat.cast_ne_zero.mpr hlen
  rw [wsum_group_split, wsum_inCell_map, wsum_inCell_map,
    cell_mass_reweighed ds g true h1, cell_mass_reweighed ds g false h2,
    div_add_div_same, ← mul_add]
  have hsum : (labelCount ds true : ℚ) + (labelCount ds false : ℚ) = (ds.length : ℚ) := by
    rw [← Nat.cast_add, labelCount_total]
  rw [hsum]
  exact mul_div_cancel_right₀ _ hN

lemma favRate_reweighed (ds : List Record) (g : Bool)
    (h1 : cellCount ds g true ≠ 0) (h2 : cellCount ds g false ≠ 0) :
    favRate (List.map (reweighRecord ds) ds) g =
      (labelCount ds true : ℚ) / (ds.length : ℚ) := by
  have hG : ((groupCount ds g : ℚ)) ≠ 0 := by
    have := groupCount_split ds g
    have hne : groupCount ds g ≠ 0 := by omega
    exact Nat.cast_ne_zero.mpr hne
  unfold favRate
  rw [wsum_inCell_map, wsum_group_reweighed ds g h1 h2,
    cell_mass_reweighed ds g true h1, mul_div_assoc]
  exact mul_div_cancel_left₀ _ hG

lemma fit_transform_ok (ds rw' : List Record)
    (h1 : cellCount ds true true ≠ 0) (h2 : cellCount ds true false ≠ 0)
    (h3 : cellCount ds false true ≠ 0) (h4 : cellCount ds false false ≠ 0)
    (hrw : fit_transform ds = Except.ok rw') :
    rw' = List.map (reweighRecord ds) ds := by
  unfold fit_transform at hrw
  rw [if_neg] at hrw
  · injection hrw with h
    exact h.symm
  · push_neg
    exact ⟨h1, h2, h3, h4⟩

lemma wsum_nonneg (p : Record → Bool) (ds : List Record)
    (h : ∀ r ∈ ds, 0 ≤ r.weight) : 0 ≤ wsum p ds := by
  induction ds with
  | nil => simp [wsum]
  | cons r tl ih =>
      have h0 : 0 ≤ r.weight := h r (List.mem_cons_self r tl)
      have ht : ∀ x ∈ tl, 0 ≤ x.weight := fun x hx => h x (List.mem_cons_of_mem _ hx)
      cases hp : p r with
      | false => simpa [wsum, hp] using ih ht
      | true =>
          simp only [wsum, hp, if_true]
          exact add_nonneg h0 (ih ht)

lemma wsum_cell_le_group (g : Bool) (ds : List Record)
    (h : ∀ r ∈ ds, 0 ≤ r.weight) :
    wsum (inCell g true) ds ≤ wsum (inGroup g) ds := by
  induction ds with
  | nil => simp [wsum]
  | cons r tl ih =>
      have h0 : 0 ≤ r.weight := h r (List.mem_cons_self r tl)
      have ht : ∀ x ∈ tl, 0 ≤ x.weight := fun x hx => h x (List.mem_cons_of_mem _ hx)
      have key := ih ht
      cases hp : r.protectedAttr <;> cases hl : r.label <;> cases g <;>
        simp [wsum, inCell, inGroup, hp, hl] <;> linarith

lemma favRate_nonneg (ds : List Record) (g : Bool)
    (h : ∀ r ∈ ds, 0 ≤ r.weight) : 0 ≤ favRate ds g :=
  div_nonneg (wsum_nonneg _ _ h) (wsum_nonneg _ _ h)

lemma favRate_le_one (ds : List Record) (g : Bool)
    (h : ∀ r ∈ ds, 0 ≤ r.weight) : favRate ds g ≤ 1 := by
  rcases eq_or_ne (wsum (inGroup g) ds) 0 with h0 | h0
  · unfold favRate
    rw [h0, div_zero]
    norm_num
  · have hpos : 0 < wsum (inGroup g) ds :=
      lt_of_le_of_ne (wsum_nonneg _ _ h) (Ne.symm h0)
    unfold favRate
    rw [div_le_one hpos]
    exact wsum_cell_le_group g ds h

lemma favRate_sample10_priv : favRate sample10 true = 1/2 := by
  norm_num [favRate, wsum, inCell, inGroup, sample10, mkR]

lemma favRate_sample10_unpriv : favRate sample10 false = 1/4 := by
  norm_num [favRate, wsum, inCell, inGroup, sample10, mkR]

lemma mean_difference_sample10 : mean_difference sample10 = -1/4 := by
  unfold mean_difference
  rw [favRate_sample10_priv, favRate_sample10_unpriv]
  norm_num

lemma disparate_impact_sample10 : disparate_impact sample10 = Except.ok (1/2) := by
  unfold disparate_impact
  rw [favRate_sample10_priv, favRate_sample10_unpriv]
  norm_num

lemma fit_transform_sample10 : fit_transform sample10 = Except.ok sample10Reweighed := by
  norm_num [fit_transform, cellCount, countIf, inCell, inGroup, groupCount, labelCount,
    sample10, sample10Reweighed, mkR, reweighRecord, reweighWeight]

lemma abs_neg_quarter : |(-1/4 : ℚ)| = 1/4 := by
  rw [show (-1/4 : ℚ) = -(1/4) by norm_num, abs_neg, abs_of_nonneg]
  norm_num

lemma evaluate_sample10 :
    evaluate sample10 = Except.ok (1/2, -1/4, true, true) := by
  unfold evaluate
  rw [disparate_impact_sample10]
  simp only [mean_difference_sample10, significant_disparity, high_gap, abs_neg_quarter]
  norm_num

/-- C1: for every dataset whose four (protected, label) cells are all
non-empty, the weights assigned by the Instance Reweigher make the weighted
favorable rate of the privileged group equal to the weighted favorable rate of
the unprivileged group; the equality is exact over ℚ, hence within the spec's
floating-point tolerance of 1e-9. -/
theorem reweighing_invariance (ds rw' : List Record)
    (h1 : cellCount ds true true ≠ 0) (h2 : cellCount ds true false ≠ 0)
    (h3 : cellCount ds false true ≠ 0) (h4 : cellCount ds false false ≠ 0)
    (hrw : fit_transform ds = Except.ok rw') :
    favRate rw' true = favRate rw' false := by
  rw [fit_transform_ok ds rw' h1 h2 h3 h4 hrw, favRate_reweighed ds true h1 h2,
    favRate_reweighed ds false h3 h4]

/-- C1 witness: the reweighing invariance at the concrete 10-record dataset of
spec §8. -/
theorem reweighing_invariance_witness :
    favRate sample10Reweighed true = favRate sample10Reweighed false :=
  reweighing_invariance sample10 sample10Reweighed (by decide) (by decide)
    (by decide) (by decide) fit_transform_sample10

/-- C2: whenever the privileged group's favorable rate is nonzero, the
disparate impact is the unprivileged group's favorable rate divided by the
privileged group's, each favorable rate being the weight-sum of the group's
favorably labelled records over the weight-sum of all the group's records
(the orientation is fixed: unprivileged over privileged). -/
theorem disparate_impact_eq (ds : List Record) (h : favRate ds true ≠ 0) :
    disparate_impact ds =
      Except.ok ((wsum (fun r => r.protectedAttr == false && r.label == true) ds /
          wsum (fun r => r.protectedAttr == false) ds) /
        (wsum (fun r => r.protectedAttr == true && r.label == true) ds /
          wsum (fun r => r.protectedAttr == true) ds)) := by
  unfold disparate_impact
  rw [if_neg h]
  rfl

/-- C2 witness: at the 10-record dataset of spec §8 the disparate impact is
(1/4) / (1/2). -/
theorem disparate_impact_eq_witness :
    disparate_impact sample10 = Except.ok ((1/4 : ℚ) / (1/2 : ℚ)) := by
  rw [disparate_impact_eq sample10
    (by rw [favRate_sample10_priv]; norm_num)]
  norm_num [wsum, inCell, inGroup, sample10, mkR]

/-- C3: whenever reweighing succeeds, every record of the output carries the
weight (count(protected = g) * count(label = l) / total) / observed_count of
its own cell; and on the 10-record dataset of spec §8 it produces exactly the
weights 4/5 (= 0.8) for the three (priv, fav) records and 8/5 (= 1.6) for the
single (unpriv, fav) record, as listed in `sample10Reweighed`. -/
theorem reweighing_weight_formula :
    (∀ ds rw' : List Record, fit_transform ds = Except.ok rw' → ∀ r ∈ rw',
        r.weight = ((groupCount ds r.protectedAttr : ℚ) * (labelCount ds r.label : ℚ) /
            (ds.length : ℚ)) / (cellCount ds r.protectedAttr r.label : ℚ)) ∧
      fit_transform sample10 = Except.ok sample10Reweighed := by
  constructor
  · intro ds rw' hrw r hr
    unfold fit_transform at hrw
    split at hrw
    · exact absurd hrw (by simp)
    · injection hrw with h
      rw [← h] at hr
      rw [List.mem_map] at hr
      obtain ⟨r0, _, rfl⟩ := hr
      rfl
  · exact fit_transform_sample10

/-- C3 witness: instantiating the weight formula at the head (priv, fav)
record and at the (unpriv, fav) record of the reweighed §8 dataset. -/
theorem reweighing_weight_formula_witness :
    (Record.mk true true (4/5) : Record).weight =
      ((groupCount sample10 true : ℚ) * (labelCount sample10 true : ℚ) /
        (sample10.length : ℚ)) / (cellCount sample10 true true : ℚ) ∧
    (Record.mk true false (8/5) : Record).weight =
      ((groupCount sample10 false : ℚ) * (labelCount sample10 true : ℚ) /
        (sample10.length : ℚ)) / (cellCount sample10 false true : ℚ) := by
  constructor
  · exact reweighing_weight_formula.1 sample10 sample10Reweighed
      reweighing_weight_formula.2 (Record.mk true true (4/5)) (by simp [sample10Reweighed])
  · exact reweighing_weight_formula.1 sample10 sample10Reweighed
      reweighing_weight_formula.2 (Record.mk true false (8/5)) (by simp [sample10Reweighed])

/-- C4: when any (protected, label) cell has zero observed records, the
Instance Reweigher fails with the distinct InsufficientData error instead of
returning a weighted dataset. -/
theorem reweighing_insufficient_data (ds : List Record) (g l : Bool)
    (h : cellCount ds g l = 0) :
    fit_transform ds = Except.error FairnessError.insufficientData := by
  have hcond : cellCount ds true true = 0 ∨ cellCount ds true false = 0 ∨
      cellCount ds false true = 0 ∨ cellCount ds false false = 0 := by
    cases g with
    | false =>
        cases l with
        | false => exact Or.inr (Or.inr (Or.inr h))
        | true => exact Or.inr (Or.inr (Or.inl h))
    | true =>
        cases l with
        | false => exact Or.inr (Or.inl h)
        | true => exact Or.inl h
  unfold fit_transform
  rw [if_pos hcond]

/-- C4 witness: the spec §8 failure scenario, a dataset whose unprivileged
group has no favorable record. -/
theorem reweighing_insufficient_data_witness :
    fit_transform dsMissingCell = Except.error FairnessError.insufficientData :=
  reweighing_insufficient_data dsMissingCell false true (by decide)

/-- C5: when the privileged group's favorable rate is zero, the disparate
impact computation fails with the DivisionByZero error (the documented choice
between failing and a NaN sentinel), and in particular returns neither 0
nor 1. -/
theorem disparate_impact_undefined (ds : List Record) (h : favRate ds true = 0) :
    disparate_impact ds = Except.error FairnessError.divisionByZero ∧
      disparate_impact ds ≠ Except.ok 0 ∧ disparate_impact ds ≠ Except.ok 1 := by
  refine ⟨?_, ?_, ?_⟩ <;> simp [disparate_impact, h]

/-- C5 witness: a concrete dataset whose privileged group has favorable rate
zero. -/
theorem disparate_impact_undefined_witness :
    disparate_impact dsZeroPriv = Except.error FairnessError.divisionByZero :=
  (disparate_impact_undefined dsZeroPriv
    (by norm_num [favRate, wsum, inCell, inGroup, dsZeroPriv, mkR])).1

/-- C6: for a dataset with non-negative weights and non-empty privileged and
unprivileged groups, the mean difference is favorable_rate(unprivileged) minus
favorable_rate(privileged), it lies in the closed interval [-1, 1], and on the
10-record dataset of spec §8 it equals -1/4. -/
theorem mean_difference_spec (ds : List Record)
    (hw : ∀ r ∈ ds, 0 ≤ r.weight)
    (hp : groupCount ds true ≠ 0) (hu : groupCount ds false ≠ 0) :
    mean_difference ds = favRate ds false - favRate ds true ∧
      -1 ≤ mean_difference ds ∧ mean_difference ds ≤ 1 ∧
      mean_difference sample10 = -1/4 := by
  have h1 := favRate_nonneg ds true hw
  have h2 := favRate_le_one ds true hw
  have h3 := favRate_nonneg ds false hw
  have h4 := favRate_le_one ds false hw
  refine ⟨rfl, ?_, ?_, mean_difference_sample10⟩ <;> unfold mean_difference <;> linarith

/-- C6 witness: the mean difference of the §8 dataset, obtained through the
theorem at the concrete input. -/
theorem mean_difference_spec_witness :
    mean_difference sample10 = -1/4 ∧ -1 ≤ mean_difference sample10 := by
  have h := mean_difference_spec sample10 (by norm_num [sample10, mkR])
    (by decide) (by decide)
  exact ⟨h.2.2.2, h.2.1⟩

/-- C8 counterexample: the source's flags are pinned to the literal thresholds
0.8 and 0.2 and cannot be configured.  At disparate impact 0.85 the source
flag is false, while the spec's configurable-threshold evaluator set to 0.9
flags it; at mean difference 0.15 the source's high-gap flag is false, while
the configurable evaluator set to 0.1 flags it.  The source functions take no
threshold argument at all (lines 158 and 163 compare against the literals), so
the claim's "supplied as configurable parameters rather than hard-coded
constants" fails. -/
theorem interpretation_thresholds_not_configurable :
    significant_disparity (17/20) = false ∧
      significant_disparity_spec (9/10) (17/20) = true ∧
      high_gap (3/20) = false ∧ high_gap_spec (1/10) (3/20) = true := by
  refine ⟨?_, ?_, ?_, ?_⟩
  · simp only [significant_disparity, decide_eq_false_iff_not]
    norm_num
  · simp only [significant_disparity_spec, decide_eq_true_eq]
    norm_num
  · simp only [high_gap, decide_eq_false_iff_not, not_lt]
    rw [abs_of_nonneg (by norm_num)]
    norm_num
  · simp only [high_gap_spec, decide_eq_true_eq]
    rw [abs_of_nonneg (by norm_num)]
    norm_num

/-- C8 (amended): whenever the Fairness Evaluator succeeds, the "significant
disparity" flag holds exactly when the disparate impact is below 0.8 and the
"high gap" flag exactly when the absolute mean difference exceeds 0.2 — the
two thresholds being the hard-coded literals of source.py lines 158 and 163
rather than configurable parameters — and on the 10-record dataset of spec §8
(disparate impact 1/2) the significant-disparity flag is true. -/
theorem interpretation_flags (ds : List Record) (di md : ℚ) (f1 f2 : Bool)
    (h : evaluate ds = Except.ok (di, md, f1, f2)) :
    (f1 = true ↔ di < 4/5) ∧ (f2 = true ↔ |md| > 1/5) ∧
      evaluate sample10 = Except.ok (1/2, -1/4, true, true) := by
  unfold evaluate at h
  cases hdi : disparate_impact ds with
  | error e =>
      rw [hdi] at h
      exact absurd h (by simp)
  | ok di2 =>
      rw [hdi] at h
      simp only [Except.ok.injEq, Prod.mk.injEq] at h
      obtain ⟨hdi2, hmd, hf1, hf2⟩ := h
      subst hdi2
      refine ⟨?_, ?_, evaluate_sample10⟩
      · rw [← hf1]
        simp [significant_disparity]
      · rw [← hf2, ← hmd]
        simp [high_gap]

/-- C8 witness: instantiating the flag equivalences at the §8 evaluation. -/
theorem interpretation_flags_witness :
    (true = true ↔ (1/2 : ℚ) < 4/5) ∧ (true = true ↔ |(-1/4 : ℚ)| > 1/5) := by
  have h := interpretation_flags sample10 (1/2) (-1/4) true true evaluate_sample10
  exact ⟨h.1, h.2.1⟩

/-- C7: for every dataset whose four (protected, label) cells are all
non-empty, the sum of the reweighed weights within each protected group equals
that group's original unweighted record count; the equality is exact over ℚ,
hence within floating-point tolerance. -/
theorem reweighing_marginal_preservation (ds rw' : List Record)
    (h1 : cellCount ds true true ≠ 0) (h2 : cellCount ds true false ≠ 0)
    (h3 : cellCount ds false true ≠ 0) (h4 : cellCount ds false false ≠ 0)
    (hrw : fit_transform ds = Except.ok rw') :
    wsum (inGroup true) rw' = (groupCount ds true : ℚ) ∧
      wsum (inGroup false) rw' = (groupCount ds false : ℚ) := by
  rw [fit_transform_ok ds rw' h1 h2 h3 h4 hrw]
  exact ⟨wsum_group_reweighed ds true h1 h2, wsum_group_reweighed ds false h3 h4⟩

/-- C7 witness: on the reweighed §8 dataset the within-group weight sums are
the original group sizes 6 and 4. -/
theorem reweighing_marginal_preservation_witness :
    wsum (inGroup true) sample10Reweighed = 6 ∧
      wsum (inGroup false) sample10Reweighed = 4 := by
  have h := reweighing_marginal_preservation sample10 sample10Reweighed
    (by decide) (by decide) (by decide) (by decide) fit_transform_sample10
  constructor
  · rw [h.1]
    norm_num [groupCount, countIf, inGroup, sample10, mkR]
  · rw [h.2]
    norm_num [groupCount, countIf, inGroup, sample10, mkR]

lemma getD_set_of_lt {α : Type} (l : List α) (n : ℕ) (x d : α) (h : n < l.length) :
    (l.set n x).getD n d = x := by
  induction l generalizing n with
  | nil => simp at h
  | cons a tl ih =>
      cases n with
      | zero => rfl
      | succ m =>
          simp only [List.set_cons_succ, List.getD_cons_succ]
          exact ih m (by simpa using h)

lemma mem_dropDupAux (rs : List (List Value)) :
    ∀ (seen : List (List Value)) (a : List Value), a ∈ rs →
      a ∈ dropDupAux rs seen ∨ a ∈ seen := by
  induction rs with
  | nil =>
      intro seen a ha
      simp at ha
  | cons r tl ih =>
      intro seen a ha
      by_cases hseen : r ∈ seen
      · rw [show dropDupAux (r :: tl) seen = dropDupAux tl seen by
          simp [dropDupAux, hseen]]
        rcases List.mem_cons.mp ha with rfl | hmem
        · exact Or.inr hseen
        · exact ih seen a hmem
      · rw [show dropDupAux (r :: tl) seen = r :: dropDupAux tl (r :: seen) by
          simp [dropDupAux, hseen]]
        rcases List.mem_cons.mp ha with rfl | hmem
        · exact Or.inl (List.mem_cons_self _ _)
        · rcases ih (r :: seen) a hmem with h | h
          · exact Or.inl (List.mem_cons_of_mem _ h)
          · rcases List.mem_cons.mp h with rfl | h2
            · exact Or.inl (List.mem_cons_self _ _)
            · exact Or.inr h2

lemma mem_drop_duplicates (rows : List (List Value)) (a : List Value)
    (ha : a ∈ rows) : a ∈ drop_duplicates rows := by
  rcases mem_dropDupAux rows [] a ha with h | h
  · exact h
  · simp at h

lemma mem_of_mem_dropDupAux (rs : List (List Value)) :
    ∀ (seen : List (List Value)) (a : List Value),
      a ∈ dropDupAux rs seen → a ∈ rs := by
  induction rs with
  | nil =>
      intro seen a ha
      simp [dropDupAux] at ha
  | cons r tl ih =>
      intro seen a ha
      by_cases hseen : r ∈ seen
      · rw [show dropDupAux (r :: tl) seen = dropDupAux tl seen by
          simp [dropDupAux, hseen]] at ha
        exact List.mem_cons_of_mem _ (ih seen a ha)
      · rw [show dropDupAux (r :: tl) seen = r :: dropDupAux tl (r :: seen) by
          simp [dropDupAux, hseen]] at ha
        rcases List.mem_cons.mp ha with rfl | h2
        · exact List.mem_cons_self _ _
        · exact List.mem_cons_of_mem _ (ih (r :: seen) a h2)

lemma mem_of_mem_drop_duplicates (rows : List (List Value)) (a : List Value)
    (ha : a ∈ drop_duplicates rows) : a ∈ rows :=
  mem_of_mem_dropDupAux rows [] a ha

lemma get?_zipWith {α β γ : Type} (f : α → β → γ) (as : List α) :
    ∀ (bs : List β) (j : ℕ) (a : α) (b : β),
      as.get? j = some a → bs.get? j = some b →
      (List.zipWith f as bs).get? j = some (f a b) := by
  induction as with
  | nil =>
      intro bs j a b h1 _
      simp at h1
  | cons x xs ih =>
      intro bs j a b h1 h2
      cases bs with
      | nil => simp at h2
      | cons y ys =>
          cases j with
          | zero =>
              simp only [List.get?_cons_zero, Option.some.injEq] at h1 h2
              simp [List.zipWith_cons_cons, h1, h2]
          | succ m =>
              simp only [List.get?_cons_succ] at h1 h2
              simpa [List.zipWith_cons_cons] using ih ys m a b h1 h2

lemma columnMedians_length (dtypes : List Dtype) (rows : List (List Value)) :
    (columnMedians dtypes rows).length = dtypes.length := by
  simp [columnMedians]

lemma columnMedians_get?_object (dtypes : List Dtype) (rows : List (List Value))
    (j : ℕ) (hj : dtypes.get? j = some Dtype.object) :
    (columnMedians dtypes rows).get? j = some none := by
  have hlt : j < dtypes.length := by
    rcases List.get?_eq_some.mp hj with ⟨h, _⟩
    exact h
  have hj2 : dtypes[j]? = some Dtype.object := by
    rw [← List.get?_eq_getElem?]
    exact hj
  unfold columnMedians
  rw [List.get?_map, List.get?_range hlt]
  simp [List.getD_eq_getElem?_getD, hj2]

lemma medianFill_wf (dtypes : List Dtype) (rows : List (List Value))
    (hwf : ∀ r ∈ rows, r.length = dtypes.length) :
    ∀ r2 ∈ medianFill dtypes rows, r2.length = dtypes.length := by
  intro r2 hr2
  unfold medianFill at hr2
  obtain ⟨r, hr, rfl⟩ := List.mem_map.mp hr2
  simp [List.length_zipWith, columnMedians_length, hwf r hr]

lemma medianFill_mem_object (dtypes : List Dtype) (rows : List (List Value))
    (j : ℕ) (r : List Value) (v : Value)
    (hj : dtypes.get? j = some Dtype.object)
    (hr : r ∈ rows) (hrj : r.get? j = some v) :
    ∃ r2 ∈ medianFill dtypes rows, r2.get? j = some v := by
  refine ⟨List.zipWith fillCell (columnMedians dtypes rows) r,
    List.mem_map_of_mem _ hr, ?_⟩
  rw [get?_zipWith fillCell (columnMedians dtypes rows) r j none v
    (columnMedians_get?_object dtypes rows j hj) hrj]
  cases v <;> rfl

lemma ffill_mem (j : ℕ) (v : Value) (hv : v ≠ Value.na) (n : ℕ)
    (rows : List (List Value)) :
    ∀ lasts : List Value, lasts.length = n → (∀ r ∈ rows, r.length = n) →
      ∀ r ∈ rows, r.get? j = some v →
      ∃ r2 ∈ ffillAux lasts rows, r2.get? j = some v := by
  induction rows with
  | nil =>
      intro lasts _ _ r hr
      simp at hr
  | cons r0 tl ih =>
      intro lasts hlen hwf r hr hrj
      have hlen0 : r0.length = n := hwf r0 (List.mem_cons_self _ _)
      have hstep_len : (ffillStep lasts r0).length = n := by
        simp [ffillStep, List.length_zipWith, hlen, hlen0]
      rcases List.mem_cons.mp hr with rfl | hmem
      · refine ⟨ffillStep lasts r, List.mem_cons_self _ _, ?_⟩
        have hj : j < r.length := by
          rcases List.get?_eq_some.mp hrj with ⟨h, _⟩
          exact h
        have hjl : j < lasts.length := by
          rw [hlen]
          rw [hwf r (List.mem_cons_self _ _)] at hj
          exact hj
        obtain ⟨l0, hl0⟩ : ∃ l0, lasts.get? j = some l0 :=
          ⟨lasts.get ⟨j, hjl⟩, List.get?_eq_get hjl⟩
        unfold ffillStep
        rw [get?_zipWith _ lasts r j l0 v hl0 hrj]
        simp [hv]
      · obtain ⟨r2, hr2, hr2j⟩ := ih (ffillStep lasts r0) hstep_len
          (fun x hx => hwf x (List.mem_cons_of_mem _ hx)) r hmem hrj
        exact ⟨r2, List.mem_cons_of_mem _ hr2, hr2j⟩

lemma transform_mem (dtypes : List Dtype) (rows : List (List Value))
    (j : ℕ) (r : List Value) (s : String)
    (hj : dtypes.get? j = some Dtype.object) (hs : parseDec s = none)
    (hr : r ∈ rows) (hrj : r.get? j = some (Value.str s)) :
    ∃ r2 ∈ transform_data_types dtypes rows, r2.get? j = some Value.na := by
  refine ⟨List.zipWith coerceCell dtypes r, List.mem_map_of_mem _ hr, ?_⟩
  rw [get?_zipWith coerceCell dtypes r j Dtype.object (Value.str s) hj hrj]
  simp [coerceCell, to_numeric, hs]

/-- C9: clean_data hands back the very table it was passed, mutated in place.
In the heap model, the call rewrites the caller's slot with the cleaned table
and returns the caller's own reference (no fresh frame is allocated, the heap
keeps its size); the cleaning applies, in order, duplicate dropping, numeric
median fill, forward fill, and object-to-numeric coercion; and the cleaned
table can differ from the original, as it does on the concrete duplicate-row
frame `dfDup`, so the caller's original table is not left unchanged. -/
theorem clean_data_in_place (h : List DataFrame) (r : ℕ) (hr : r < h.length) :
    (clean_data_call h r).2 = r ∧
      (clean_data_call h r).1.length = h.length ∧
      (clean_data_call h r).1.getD r emptyDF = clean_data (h.getD r emptyDF) ∧
      (∀ df : DataFrame, (clean_data df).rows =
        transform_data_types df.dtypes (ffill df.dtypes.length
          (medianFill df.dtypes (drop_duplicates df.rows)))) ∧
      clean_data dfDup ≠ dfDup := by
  refine ⟨rfl, by simp [clean_data_call], getD_set_of_lt h r _ emptyDF hr,
    fun _ => rfl, ?_⟩
  intro hEq
  have hlen : (clean_data dfDup).rows.length = dfDup.rows.length := by rw [hEq]
  have h1 : (clean_data dfDup).rows.length = 1 := by
    norm_num [clean_data, transform_data_types, ffill, ffillAux, ffillStep,
      medianFill, drop_duplicates, dropDupAux, dfDup]
  have h2 : dfDup.rows.length = 2 := by norm_num [dfDup]
  rw [h1, h2] at hlen
  exact absurd hlen (by norm_num)

/-- C9 witness: the call on a singleton heap holding the duplicate-row frame
returns the same reference and leaves the cleaned frame in the caller's
slot. -/
theorem clean_data_in_place_witness :
    (clean_data_call [dfDup] 0).2 = 0 ∧
      (clean_data_call [dfDup] 0).1.getD 0 emptyDF = clean_data dfDup := by
  have h := clean_data_in_place [dfDup] 0 (by norm_num)
  exact ⟨h.1, h.2.2.1⟩

/-- C10: when an object-dtype column holds a value no decimal literal parses
from, the frame returned by clean_data contains a missing value in that
column: the numeric coercion runs after the median fill and the forward fill,
so cleaning reintroduces NaN and its output does not satisfy the non-missing
invariant. -/
theorem clean_data_coercion_na (df : DataFrame) (j : ℕ) (s : String)
    (hj : df.dtypes.get? j = some Dtype.object)
    (hwf : ∀ row ∈ df.rows, row.length = df.dtypes.length)
    (hs : parseDec s = none)
    (hrow : ∃ row ∈ df.rows, row.get? j = some (Value.str s)) :
    ∃ row ∈ (clean_data df).rows, row.get? j = some Value.na := by
  obtain ⟨r0, hr0, hr0j⟩ := hrow
  have hr1 := mem_drop_duplicates df.rows r0 hr0
  have hwf1 : ∀ r ∈ drop_duplicates df.rows, r.length = df.dtypes.length :=
    fun r hr => hwf r (mem_of_mem_drop_duplicates _ _ hr)
  obtain ⟨r2, hr2, hr2j⟩ := medianFill_mem_object df.dtypes
    (drop_duplicates df.rows) j r0 (Value.str s) hj hr1 hr0j
  have hwf2 := medianFill_wf df.dtypes (drop_duplicates df.rows) hwf1
  obtain ⟨r3, hr3, hr3j⟩ := ffill_mem j (Value.str s) (by simp) df.dtypes.length
    (medianFill df.dtypes (drop_duplicates df.rows))
    (List.replicate df.dtypes.length Value.na) (by simp) hwf2 r2 hr2 hr2j
  obtain ⟨r4, hr4, hr4j⟩ := transform_mem df.dtypes
    (ffill df.dtypes.length (medianFill df.dtypes (drop_duplicates df.rows)))
    j r3 s hj hs hr3 hr3j
  exact ⟨r4, hr4, hr4j⟩

/-- C10 witness: cleaning the concrete frame whose object column holds the
unparseable string "abc" leaves a missing value in that column. -/
theorem clean_data_coercion_na_witness :
    Value.na ∈ ((clean_data dfObj).rows.map fun row => row.getD 0 Value.na) := by
  obtain ⟨row, hm, hv⟩ := clean_data_coercion_na dfObj 0 "abc" rfl
    (by simp [dfObj]) (by simp [parseDec, parseUnsigned, digitsVal, digitsValAux])
    ⟨[Value.str "abc"], by simp [dfObj], rfl⟩
  have hgd : row.getD 0 Value.na = Value.na := by
    simp [List.getD_eq_getElem?_getD, ← List.get?_eq_getElem?, hv]
  have hmem := List.mem_map_of_mem (fun row => row.getD 0 Value.na) hm
  simpa only [hgd] using hmem
